import Mathlib

/-!
Shallow embedding of the k8s-playground backend (src/backend/main.go):
the Todo CRUD handlers, the file-store handlers, and the startup
connection-retry loop.

The relational store is modelled as the list of live (not soft-deleted)
rows of the todos table.  Driver and filesystem failures are modelled as
explicitly injected error-message values (an `Option String` per storage
call, `some e` meaning the call fails with message `e`); the
`gorm:"unique"` column constraint on `uuid` is part of the store model.
JSON request bodies are modelled as a record of optional fields (absent
fields decode to the Go zero value), and a whole unparseable body as the
`Except.error` case carrying the decoder message.
-/

/-- Row of the todos table (struct `Todo`, main.go lines 20-27).  The
`gorm.Model` bookkeeping columns (numeric id, timestamps) are not read by
any handler and are omitted from the row model. -/
structure Todo where
  uuid : String
  title : String
  description : String
  completed : Bool
  file_path : String
deriving DecidableEq, Repr

/-- The Go zero value of `Todo` (what `var todo Todo` declares). -/
def zeroTodo : Todo :=
  { uuid := "", title := "", description := "", completed := false, file_path := "" }

/-- A parseable JSON request body for a todo: each field is optionally
present.  Fields other than these five are ignored by the Go decoder. -/
structure TodoBody where
  uuid : Option String := none
  title : Option String := none
  description : Option String := none
  completed : Option Bool := none
  file_path : Option String := none
deriving DecidableEq, Repr

/-- `json.NewDecoder(r.Body).Decode(&todo)` on a parseable body: absent
fields keep the zero value of the target struct. -/
def decodeTodo (b : TodoBody) : Todo :=
  { uuid := b.uuid.getD ""
    title := b.title.getD ""
    description := b.description.getD ""
    completed := b.completed.getD false
    file_path := b.file_path.getD "" }

/-- Bodies of HTTP responses produced by the handlers. -/
inductive RespBody where
  | text (msg : String)
  | json (t : Todo)
  | jsonList (ts : List Todo)
  | jsonStrings (names : List String)
  | jsonPath (p : String)
  | binary (bytes : List Nat)
  | empty
deriving DecidableEq, Repr

/-- An HTTP response: status code and body. -/
structure Resp where
  status : Nat
  body : RespBody
deriving DecidableEq, Repr

/-- The visible (live) rows of the todos table. -/
abbrev DB := List Todo

/-- Hex digit characters as produced by Go `encoding/hex` (lowercase). -/
def hexChar (n : Nat) : Char :=
  if n < 10 then Char.ofNat (48 + n) else Char.ofNat (87 + n)

/-- Two lowercase hex characters for one byte. -/
def byteToHex (b : Nat) : String :=
  String.mk [hexChar (b / 16 % 16), hexChar (b % 16)]

/-- Hex encoding of a byte list. -/
def bytesToHex : List Nat → String
  | [] => ""
  | b :: bs => byteToHex b ++ bytesToHex bs

/-- `uuid.New().String()` from github.com/google/uuid: the canonical
8-4-4-4-12 lowercase-hex rendering of the 16 random bytes `g`. -/
def uuidToString (g : Fin 16 → Nat) : String :=
  let bs := List.ofFn g
  bytesToHex (bs.take 4) ++ "-" ++ bytesToHex ((bs.drop 4).take 2) ++ "-" ++
    bytesToHex ((bs.drop 6).take 2) ++ "-" ++ bytesToHex ((bs.drop 8).take 2) ++ "-" ++
    bytesToHex (bs.drop 10)

/-- `db.Create(&todo)`: fails on an injected driver error, or on the
`gorm:"unique"` constraint when the uuid already occurs; otherwise
appends the row. -/
def dbCreate (row : Todo) (db : DB) (infra : Option String) : Except String DB :=
  match infra with
  | some e => .error e
  | none =>
    if db.any (fun t => t.uuid = row.uuid) then
      .error "duplicate key value violates unique constraint"
    else .ok (db ++ [row])

/-- `db.Where("uuid = ?", u).First(&todo)`: injected driver error, or the
first matching row, or the gorm record-not-found error. -/
def dbFirst (u : String) (db : DB) (infra : Option String) : Except String Todo :=
  match infra with
  | some e => .error e
  | none =>
    match db.find? (fun t => t.uuid = u) with
    | some t => .ok t
    | none => .error "record not found"

/-- `db.Model(&Todo{}).Where("uuid = ?", u).Updates(map{"completed": c})`:
sets only the completed column of every matching row; zero matching rows
is not an error. -/
def dbUpdatesCompleted (u : String) (c : Bool) (db : DB) (infra : Option String) :
    Except String DB :=
  match infra with
  | some e => .error e
  | none => .ok (db.map (fun t => if t.uuid = u then { t with completed := c } else t))

/-- `db.Where("uuid = ?", u).Delete(&Todo{})`: removes every matching row;
zero matching rows is not an error. -/
def dbDelete (u : String) (db : DB) (infra : Option String) : Except String DB :=
  match infra with
  | some e => .error e
  | none => .ok (db.filter (fun t => ¬ t.uuid = u))

/-- The row `createTodo` hands to `db.Create`: the decoded body with its
uuid overwritten by the freshly generated one (main.go line 111). -/
def createdRow (b : TodoBody) (g : Fin 16 → Nat) : Todo :=
  { decodeTodo b with uuid := uuidToString g }

/-- Handler `createTodo` (main.go lines 102-122).  `body` is the decoder
result, `g` the random bytes drawn by `uuid.New()`, `infra` an injected
driver failure.  Returns the response and the resulting table. -/
def createTodo (body : Except String TodoBody) (g : Fin 16 → Nat) (infra : Option String)
    (db : DB) : Resp × DB :=
  match body with
  | .error e => (⟨400, .text e⟩, db)
  | .ok b =>
    match dbCreate (createdRow b g) db infra with
    | .error e => (⟨500, .text e⟩, db)
    | .ok db2 => (⟨201, .json (createdRow b g)⟩, db2)

/-- Handler `getAllTodos` (main.go lines 124-134). -/
def getAllTodos (infra : Option String) (db : DB) : Resp :=
  match infra with
  | some e => ⟨500, .text e⟩
  | none => ⟨200, .jsonList db⟩

/-- Handler `getTodo` (main.go lines 136-149): any error from the lookup,
including record-not-found, is returned as a 404 whose body is the error
message. -/
def getTodo (u : String) (infra : Option String) (db : DB) : Resp :=
  match dbFirst u db infra with
  | .error e => ⟨404, .text e⟩
  | .ok t => ⟨200, .json t⟩

/-- Handler `updateTodo` (main.go lines 151-174): decodes the body, applies
only `completed` to the matching rows, then re-reads the row by uuid,
IGNORING the error of the re-read (line 171): on a failed re-read the
zero-value `todo` is encoded with status 200. -/
def updateTodo (u : String) (body : Except String TodoBody)
    (writeErr reReadErr : Option String) (db : DB) : Resp × DB :=
  match body with
  | .error e => (⟨400, .text e⟩, db)
  | .ok b =>
    match dbUpdatesCompleted u (decodeTodo b).completed db writeErr with
    | .error e => (⟨500, .text e⟩, db)
    | .ok db2 =>
      let todo :=
        match dbFirst u db2 reReadErr with
        | .ok t => t
        | .error _ => zeroTodo
      (⟨200, .json todo⟩, db2)

/-- Handler `deleteTodo` (main.go lines 176-187): 204 No Content whenever
the delete call itself does not error, matched rows or not. -/
def deleteTodo (u : String) (infra : Option String) (db : DB) : Resp × DB :=
  match dbDelete u db infra with
  | .error e => (⟨500, .text e⟩, db)
  | .ok db2 => (⟨204, .empty⟩, db2)

/-- Trailing path separators removed (first step of Go `filepath.Base`). -/
def dropTrailingSlashes (cs : List Char) : List Char :=
  ((cs.reverse).dropWhile (fun c => c = '/')).reverse

/-- The characters after the last separator (second step of `filepath.Base`). -/
def lastComponent (cs : List Char) : List Char :=
  cs.foldl (fun acc c => if c = '/' then [] else acc ++ [c]) []

/-- Go `filepath.Base` on unix: "." for the empty path, trailing slashes
stripped, then everything after the last slash; "/" when the path was all
slashes. -/
def filepathBase (path : String) : String :=
  if path = "" then "."
  else
    let cs := dropTrailingSlashes path.data
    if cs = [] then "/"
    else String.mk (lastComponent cs)

/-- One step of the component normalisation done by Go `filepath.Clean` on
an absolute path: empty and "." components vanish, ".." pops. -/
def cleanPush (acc : List String) (c : String) : List String :=
  if c = "" ∨ c = "." then acc
  else if c = ".." then acc.dropLast
  else acc ++ [c]

/-- Go `filepath.Join(dir, name)` for the absolute `dir` used by this
program: `Clean(dir + "/" + name)`, computed on slash-separated
components. -/
def filepathJoin (dir name : String) : String :=
  "/" ++ String.intercalate "/" (((dir ++ "/" ++ name).splitOn "/").foldl cleanPush [])

/-- The fixed upload directory (main.go lines 67, 197, 218, 239, 256). -/
def uploadDir : String := "/app/uploads"

/-- Handler `uploadFile` (main.go lines 189-215).  `formFile` is the result
of `r.FormFile("file")` carrying the client-supplied filename, `nowNano`
the value of `time.Now().UnixNano()`, and the two `Option String`s are
injected failures of `os.Create` and `io.Copy`. -/
def uploadFile (formFile : Except String String) (nowNano : Nat)
    (createErr copyErr : Option String) : Resp :=
  match formFile with
  | .error e => ⟨400, .text e⟩
  | .ok clientName =>
    let filePath := filepathJoin uploadDir (toString nowNano ++ "-" ++ filepathBase clientName)
    match createErr with
    | some e => ⟨500, .text e⟩
    | none =>
      match copyErr with
      | some e => ⟨500, .text e⟩
      | none => ⟨201, .jsonPath filePath⟩

/-- A directory entry as returned by `os.ReadDir`. -/
structure DirEntry where
  name : String
  isDir : Bool
deriving DecidableEq, Repr

/-- Handler `listFiles` (main.go lines 217-234): the names of the
non-directory entries of the upload directory. -/
def listFiles (readDir : Except String (List DirEntry)) : Resp :=
  match readDir with
  | .error e => ⟨500, .text e⟩
  | .ok entries =>
    ⟨200, .jsonStrings ((entries.filter (fun f => ¬ f.isDir)).map (fun f => f.name))⟩

/-- Handler `downloadFile` (main.go lines 236-251).  `fs` models
`os.Open` composed with reading the bytes: the file content at a path, or
an error message.  On any open error the literal body "File not found" is
returned (line 243), not the error message. -/
def downloadFile (fileName : String) (fs : String → Except String (List Nat)) : Resp :=
  match fs (filepathJoin uploadDir fileName) with
  | .error _ => ⟨404, .text "File not found"⟩
  | .ok bytes => ⟨200, .binary bytes⟩

/-- Handler `deleteFile` (main.go lines 253-265): `remove` models
`os.Remove` (the error message at a path, if any); 200 on success, 500
with the error message otherwise. -/
def deleteFile (fileName : String) (remove : String → Option String) : Resp :=
  match remove (filepathJoin uploadDir fileName) with
  | some e => ⟨500, .text e⟩
  | none => ⟨200, .empty⟩

/-- Result of the startup connector: a handle obtained at some attempt, or
a fatal exit; either way the list of sleeps (in seconds) performed. -/
inductive ConnectResult where
  | connected (attempt : Nat) (waits : List Nat)
  | fatal (attempts : Nat) (waits : List Nat)
deriving DecidableEq, Repr

/-- Number of connection attempts actually made. -/
def ConnectResult.attempts : ConnectResult → Nat
  | .connected a _ => a
  | .fatal n _ => n

/-- The loop of `connectToDatabase` (main.go lines 33-50): `ok k` says
whether the k-th `gorm.Open` succeeds; on failure the loop sleeps
`attempt*2` seconds (line 49) before re-testing the loop condition.
`remaining` counts the iterations the loop bound still allows. -/
def connectLoop (ok : Nat → Bool) : Nat → Nat → List Nat → ConnectResult
  | attempt, 0, waits => .fatal (attempt - 1) waits
  | attempt, remaining + 1, waits =>
    if ok attempt then .connected attempt waits
    else connectLoop ok (attempt + 1) remaining (waits ++ [attempt * 2])

/-- `connectToDatabase` (main.go lines 31-54): `maxRetries = 5`, attempts
numbered from 1; `log.Fatal` on exhaustion. -/
def connectToDatabase (ok : Nat → Bool) : ConnectResult :=
  connectLoop ok 1 5 []

/-- The sleeps performed by the first `k` failed attempts: 2, 4, ..., 2k. -/
def backoffs (k : Nat) : List Nat :=
  (List.range k).map (fun i => (i + 1) * 2)

/-- uuid is unique across the live rows. -/
def uuidUnique (db : DB) : Prop :=
  (db.map Todo.uuid).Nodup

instance (db : DB) : Decidable (uuidUnique db) :=
  inferInstanceAs (Decidable (db.map Todo.uuid).Nodup)

/-- A convenient sample row for witnesses. -/
def sampleTodo : Todo :=
  { uuid := "u1", title := "T", description := "D", completed := false, file_path := "p" }

/-- The loop makes at most `a + r - 1` numbered attempts when it starts at
attempt `a` with `r` iterations still allowed by the loop bound. -/
theorem connectLoop_attempts_le (ok : Nat → Bool) :
    ∀ r a w, (connectLoop ok a r w).attempts ≤ a + r - 1 := by
  intro r
  induction r with
  | zero =>
    intro a w
    simp [connectLoop, ConnectResult.attempts]
  | succ r ih =>
    intro a w
    simp only [connectLoop]
    cases hok : ok a with
    | true =>
      simp [ConnectResult.attempts]
    | false =>
      simp only [Bool.false_eq_true, if_false]
      have := ih (a + 1) (w ++ [a * 2])
      omega

/-- Claim C1: the startup connector makes at most 5 attempts; if the first
k-1 attempts fail and attempt k (1 ≤ k ≤ 5) succeeds, it returns the
handle at attempt k with no further retries; if all 5 attempts fail it
exits fatally after exactly 5 attempts. -/
theorem connect_retry_policy :
    (∀ (ok : Nat → Bool) (k : Nat), 1 ≤ k → k ≤ 5 →
      (∀ j, 1 ≤ j → j < k → ok j = false) → ok k = true →
      connectToDatabase ok = .connected k (backoffs (k - 1))) ∧
    (∀ ok : Nat → Bool, (∀ k, 1 ≤ k → k ≤ 5 → ok k = false) →
      connectToDatabase ok = .fatal 5 [2, 4, 6, 8, 10]) ∧
    (∀ ok : Nat → Bool, (connectToDatabase ok).attempts ≤ 5) := by
  refine ⟨?_, ?_, ?_⟩
  · intro ok k h1 h5 hfail hok
    interval_cases k
    · simp [connectToDatabase, connectLoop, hok, backoffs]
    · simp [connectToDatabase, connectLoop, hfail 1 (by omega) (by omega), hok,
        backoffs] <;> decide
    · simp [connectToDatabase, connectLoop, hfail 1 (by omega) (by omega),
        hfail 2 (by omega) (by omega), hok, backoffs] <;> decide
    · simp [connectToDatabase, connectLoop, hfail 1 (by omega) (by omega),
        hfail 2 (by omega) (by omega), hfail 3 (by omega) (by omega), hok,
        backoffs] <;> decide
    · simp [connectToDatabase, connectLoop, hfail 1 (by omega) (by omega),
        hfail 2 (by omega) (by omega), hfail 3 (by omega) (by omega),
        hfail 4 (by omega) (by omega), hok, backoffs] <;> decide
  · intro ok h
    simp [connectToDatabase, connectLoop, h 1 (by omega) (by omega), h 2 (by omega) (by omega),
      h 3 (by omega) (by omega), h 4 (by omega) (by omega), h 5 (by omega) (by omega)]
  · intro ok
    have := connectLoop_attempts_le ok 5 1 []
    simpa [connectToDatabase] using this

/-- Witness for C1: a store reachable only at the 3rd attempt connects at
attempt 3; a store never reachable is fatal after 5 attempts. -/
theorem connect_retry_policy_witness :
    connectToDatabase (fun k => k == 3) = .connected 3 (backoffs 2) ∧
    connectToDatabase (fun _ => false) = .fatal 5 [2, 4, 6, 8, 10] :=
  ⟨connect_retry_policy.1 (fun k => k == 3) 3 (by decide) (by decide)
      (fun j hj1 hj3 => by interval_cases j <;> rfl) rfl,
    connect_retry_policy.2.1 (fun _ => false) (fun _ _ _ => rfl)⟩

/-- Claim C2 counterexample: when every attempt fails the performed waits
are 2, 4, 6, 8, 10 seconds — the sleep at main.go line 49 also runs after
the 5th (final) failed attempt, so the wait sequence is not 2, 4, 6, 8 and
a wait does occur after the final failed attempt before termination. -/
theorem connect_backoff_counterexample :
    connectToDatabase (fun _ => false) = .fatal 5 [2, 4, 6, 8, 10] ∧
    ¬ connectToDatabase (fun _ => false) = .fatal 5 [2, 4, 6, 8] := by
  constructor <;> decide

/-- Claim C2 (amended): the wait after the k-th failed attempt is k times
2 seconds; when every attempt fails the full wait sequence is 2, 4, 6, 8,
10 seconds, the final 10-second sleep occurring after the 5th failed
attempt, before the fatal termination. -/
theorem connect_backoff_waits (ok : Nat → Bool)
    (h : ∀ k, 1 ≤ k → k ≤ 5 → ok k = false) :
    connectToDatabase ok = .fatal 5 (backoffs 5) ∧ backoffs 5 = [2, 4, 6, 8, 10] := by
  constructor
  · simp [connectToDatabase, connectLoop, backoffs, h 1 (by omega) (by omega),
      h 2 (by omega) (by omega), h 3 (by omega) (by omega), h 4 (by omega) (by omega),
      h 5 (by omega) (by omega)] <;> decide
  · decide

/-- Witness for C2 (amended) at the never-reachable store. -/
theorem connect_backoff_waits_witness :
    connectToDatabase (fun _ => false) = .fatal 5 (backoffs 5) ∧ backoffs 5 = [2, 4, 6, 8, 10] :=
  connect_backoff_waits (fun _ => false) (fun _ _ _ => rfl)

/-- With a parseable body and no write error, the table after `updateTodo`
is the old table with only the completed column of the matching rows
rewritten. -/
theorem updateTodo_state_eq (u : String) (b : TodoBody) (re : Option String) (db : DB) :
    (updateTodo u (.ok b) none re db).2 =
      db.map (fun t => if t.uuid = u then { t with completed := (decodeTodo b).completed }
        else t) := rfl

/-- Claim C3: an update on an existing todo with a parseable body changes
only the completed field of the stored rows — every row keeps its uuid,
title, description and file_path, whatever else the body contains. -/
theorem updateTodo_frame (u : String) (b : TodoBody) (re : Option String) (db : DB)
    (hex : ∃ t ∈ db, t.uuid = u) :
    ((updateTodo u (.ok b) none re db).2).map
        (fun t => (t.uuid, t.title, t.description, t.file_path)) =
      db.map (fun t => (t.uuid, t.title, t.description, t.file_path)) := by
  rw [updateTodo_state_eq, List.map_map]
  apply List.map_congr_left
  intro t _
  by_cases h : t.uuid = u <;> simp [h]

/-- Witness for C3: updating the completed flag of the stored row keeps
its other four fields. -/
theorem updateTodo_frame_witness :
    ((updateTodo "u1" (.ok { completed := some true }) none none [sampleTodo]).2).map
        (fun t => (t.uuid, t.title, t.description, t.file_path)) =
      [sampleTodo].map (fun t => (t.uuid, t.title, t.description, t.file_path)) :=
  updateTodo_frame "u1" { completed := some true } none [sampleTodo]
    ⟨sampleTodo, by simp, rfl⟩

/-- Claim C10: an update whose uuid matches no stored row, with a parseable
body and no write error, answers 200 with the zero-value Todo (the error
of the post-update re-read at main.go line 171 is discarded) and leaves
the table unchanged. -/
theorem updateTodo_missing_zero (u : String) (b : TodoBody) (re : Option String) (db : DB)
    (h : ∀ t ∈ db, t.uuid ≠ u) :
    updateTodo u (.ok b) none re db = (⟨200, .json zeroTodo⟩, db) := by
  have hmap : db.map (fun t => if t.uuid = u then
      { t with completed := (decodeTodo b).completed } else t) = db := by
    conv_rhs => rw [← List.map_id db]
    apply List.map_congr_left
    intro t ht
    simp [h t ht]
  have hfind : db.find? (fun t => t.uuid = u) = none := by
    rw [List.find?_eq_none]
    intro t ht
    simp [h t ht]
  cases re with
  | some e => simp [updateTodo, dbUpdatesCompleted, dbFirst, hmap]
  | none => simp [updateTodo, dbUpdatesCompleted, dbFirst, hmap, hfind]

/-- Witness for C10: updating an absent uuid yields 200 with the
zero-value row. -/
theorem updateTodo_missing_zero_witness :
    updateTodo "nope" (.ok { completed := some true }) none none [sampleTodo] =
      (⟨200, .json zeroTodo⟩, [sampleTodo]) :=
  updateTodo_missing_zero "nope" { completed := some true } none [sampleTodo] (by decide)

/-- A parseable body that explicitly sets completed to true. -/
def trueBody : TodoBody := { title := some "Buy milk", completed := some true }

/-- Claim C4 counterexample: a parseable create body carrying
completed = true is persisted and returned with completed = true, so the
created row does not always have completed = false. -/
theorem create_completed_counterexample :
    ((createTodo (.ok trueBody) (fun _ => 0) none []).2).map Todo.completed = [true] ∧
    ((createTodo (.ok trueBody) (fun _ => 0) none []).1).status = 201 ∧
    ¬ ((createTodo (.ok trueBody) (fun _ => 0) none []).2).map Todo.completed = [false] :=
  ⟨rfl, rfl, by decide⟩

/-- Claim C4 (amended): a successful create persists and returns the
decoded body with a fresh uuid; its completed equals the completed field
of the body, which defaults to false when the body omits it. -/
theorem create_completed_from_body (b : TodoBody) (g : Fin 16 → Nat) (db : DB)
    (h : db.any (fun t => t.uuid = uuidToString g) = false) :
    createTodo (.ok b) g none db = (⟨201, .json (createdRow b g)⟩, db ++ [createdRow b g]) ∧
    (createdRow b g).completed = b.completed.getD false ∧
    (b.completed = none → (createdRow b g).completed = false) := by
  refine ⟨?_, rfl, ?_⟩
  · have huuid : (createdRow b g).uuid = uuidToString g := rfl
    simp only [createTodo, dbCreate, huuid, h, Bool.false_eq_true, if_false]
  · intro hb
    simp [createdRow, decodeTodo, hb]

/-- Witness for C4 (amended): a body without a completed field creates a
row with completed = false. -/
theorem create_completed_from_body_witness :
    createTodo (.ok {}) (fun _ => 0) none [] =
      (⟨201, .json (createdRow {} (fun _ => 0))⟩, [] ++ [createdRow {} (fun _ => 0)]) ∧
    (createdRow {} (fun _ => 0)).completed = ({} : TodoBody).completed.getD false ∧
    (({} : TodoBody).completed = none → (createdRow {} (fun _ => 0)).completed = false) :=
  create_completed_from_body {} (fun _ => 0) [] rfl

/-- A hex-encoded byte is two characters. -/
theorem byteToHex_length (b : Nat) : (byteToHex b).length = 2 := rfl

/-- A hex-encoded byte list has twice as many characters as bytes. -/
theorem bytesToHex_length (bs : List Nat) : (bytesToHex bs).length = 2 * bs.length := by
  induction bs with
  | nil => rfl
  | cons b t ih =>
    simp only [bytesToHex, String.length_append, byteToHex_length, ih, List.length_cons]
    omega

/-- A rendered uuid always has 36 characters (32 hex digits, 4 hyphens). -/
theorem uuidToString_length (g : Fin 16 → Nat) : (uuidToString g).length = 36 := by
  have hdash : ("-" : String).length = 1 := rfl
  simp only [uuidToString, String.length_append, bytesToHex_length, hdash,
    List.length_take, List.length_drop, List.length_ofFn]
  omega

/-- Claim C5: the row stored by a create carries the freshly generated
uuid whatever uuid value the body carried; a generated uuid string is
never empty; and uuid-uniqueness of the live rows is preserved by the
create, update and delete operations. -/
theorem create_uuid_unique :
    (∀ (b : TodoBody) (g : Fin 16 → Nat), (createdRow b g).uuid = uuidToString g) ∧
    (∀ g : Fin 16 → Nat, uuidToString g ≠ "") ∧
    (∀ (body : Except String TodoBody) (g : Fin 16 → Nat) (infra : Option String) (db : DB),
      uuidUnique db → uuidUnique (createTodo body g infra db).2) ∧
    (∀ (u : String) (body : Except String TodoBody) (we re : Option String) (db : DB),
      uuidUnique db → uuidUnique (updateTodo u body we re db).2) ∧
    (∀ (u : String) (infra : Option String) (db : DB),
      uuidUnique db → uuidUnique (deleteTodo u infra db).2) := by
  refine ⟨fun _ _ => rfl, ?_, ?_, ?_, ?_⟩
  · intro g he
    have hl := uuidToString_length g
    rw [he] at hl
    exact absurd hl (by decide)
  · intro body g infra db hdb
    cases body with
    | error e => exact hdb
    | ok b =>
      cases infra with
      | some e => exact hdb
      | none =>
        by_cases hdup : (db.any fun t => t.uuid = (createdRow b g).uuid) = true
        · simp only [createTodo, dbCreate, hdup, if_true]
          exact hdb
        · have hdup2 : (db.any fun t => t.uuid = (createdRow b g).uuid) = false :=
            Bool.eq_false_iff.mpr hdup
          simp only [createTodo, dbCreate, hdup2, Bool.false_eq_true, if_false]
          unfold uuidUnique at hdb ⊢
          rw [List.map_append, List.nodup_append]
          refine ⟨hdb, List.nodup_singleton _, ?_⟩
          intro x hx hx2
          rcases List.mem_map.mp hx with ⟨t, ht, hta⟩
          rw [List.map_singleton, List.mem_singleton] at hx2
          rw [List.any_eq_false] at hdup2
          have hne := hdup2 t ht
          simp only [decide_eq_true_eq] at hne
          exact hne (by rw [hta, hx2])
  · intro u body we re db hdb
    cases body with
    | error e => exact hdb
    | ok b =>
      cases we with
      | some e => exact hdb
      | none =>
        have hmaps : ((updateTodo u (.ok b) none re db).2).map Todo.uuid =
            db.map Todo.uuid := by
          rw [updateTodo_state_eq, List.map_map]
          apply List.map_congr_left
          intro t _
          by_cases h : t.uuid = u <;> simp [h]
        unfold uuidUnique at hdb ⊢
        rw [hmaps]
        exact hdb
  · intro u infra db hdb
    cases infra with
    | some e => exact hdb
    | none =>
      unfold uuidUnique at hdb ⊢
      exact List.Nodup.sublist (List.Sublist.map Todo.uuid (List.filter_sublist db)) hdb

/-- Witness for C5: the uniqueness invariant after a create, an update and
a delete on a one-row table. -/
theorem create_uuid_unique_witness :
    uuidUnique (createTodo (.ok {}) (fun _ => 0) none [sampleTodo]).2 ∧
    uuidUnique (updateTodo "u1" (.ok {}) none none [sampleTodo]).2 ∧
    uuidUnique (deleteTodo "u1" none [sampleTodo]).2 :=
  ⟨create_uuid_unique.2.2.1 (.ok {}) (fun _ => 0) none [sampleTodo] (by decide),
    create_uuid_unique.2.2.2.1 "u1" (.ok {}) none none [sampleTodo] (by decide),
    create_uuid_unique.2.2.2.2 "u1" none [sampleTodo] (by decide)⟩

/-- Claim C6 counterexample: a failed `os.Open` in the download handler is
answered with the fixed body "File not found" (main.go line 243), not with
the message of the triggering error. -/
theorem error_body_counterexample :
    downloadFile "report.txt"
        (fun _ => .error "open /app/uploads/report.txt: no such file or directory") =
      ⟨404, .text "File not found"⟩ ∧
    ¬ (RespBody.text "File not found" =
        RespBody.text "open /app/uploads/report.txt: no such file or directory") :=
  ⟨rfl, by decide⟩

/-- Claim C6 (amended): every failing branch of every handler answers with
the message of the triggering error as the response body — except the
not-found branch of the file download, which answers with the fixed text
"File not found" regardless of the error message. -/
theorem error_body_propagation :
    (∀ (e : String) (g : Fin 16 → Nat) (infra : Option String) (db : DB),
      (createTodo (.error e) g infra db).1 = ⟨400, .text e⟩) ∧
    (∀ (b : TodoBody) (e : String) (g : Fin 16 → Nat) (db : DB),
      (createTodo (.ok b) g (some e) db).1 = ⟨500, .text e⟩) ∧
    (∀ (e : String) (db : DB), getAllTodos (some e) db = ⟨500, .text e⟩) ∧
    (∀ (u e : String) (db : DB), getTodo u (some e) db = ⟨404, .text e⟩) ∧
    (∀ (u e : String) (we re : Option String) (db : DB),
      (updateTodo u (.error e) we re db).1 = ⟨400, .text e⟩) ∧
    (∀ (u e : String) (b : TodoBody) (re : Option String) (db : DB),
      (updateTodo u (.ok b) (some e) re db).1 = ⟨500, .text e⟩) ∧
    (∀ (u e : String) (db : DB), (deleteTodo u (some e) db).1 = ⟨500, .text e⟩) ∧
    (∀ (e : String) (now : Nat) (ce co : Option String),
      uploadFile (.error e) now ce co = ⟨400, .text e⟩) ∧
    (∀ (f e : String) (now : Nat) (co : Option String),
      uploadFile (.ok f) now (some e) co = ⟨500, .text e⟩) ∧
    (∀ (f e : String) (now : Nat), uploadFile (.ok f) now none (some e) = ⟨500, .text e⟩) ∧
    (∀ e : String, listFiles (.error e) = ⟨500, .text e⟩) ∧
    (∀ (u : String) (db : DB), db.find? (fun t => t.uuid = u) = none →
      getTodo u none db = ⟨404, .text "record not found"⟩) ∧
    (∀ (fn : String) (fs : String → Except String (List Nat)) (e : String),
      fs (filepathJoin uploadDir fn) = .error e →
      downloadFile fn fs = ⟨404, .text "File not found"⟩) ∧
    (∀ (fn : String) (rm : String → Option String) (e : String),
      rm (filepathJoin uploadDir fn) = some e → deleteFile fn rm = ⟨500, .text e⟩) := by
  refine ⟨fun _ _ _ _ => rfl, fun _ _ _ _ => rfl, fun _ _ => rfl, fun _ _ _ => rfl,
    fun _ _ _ _ _ => rfl, fun _ _ _ _ _ => rfl, fun _ _ _ => rfl, fun _ _ _ _ => rfl,
    fun _ _ _ _ => rfl, fun _ _ _ => rfl, fun _ => rfl, ?_, ?_, ?_⟩
  · intro u db h
    simp [getTodo, dbFirst, h]
  · intro fn fs e h
    simp [downloadFile, h]
  · intro fn rm e h
    simp [deleteFile, h]

/-- Witness for C6 (amended): the three lookup-failure branches at
concrete inputs. -/
theorem error_body_propagation_witness :
    getTodo "nope" none [] = ⟨404, .text "record not found"⟩ ∧
    downloadFile "x" (fun _ => .error "no such file") = ⟨404, .text "File not found"⟩ ∧
    deleteFile "x" (fun _ => some "remove failed") = ⟨500, .text "remove failed"⟩ :=
  ⟨error_body_propagation.2.2.2.2.2.2.2.2.2.2.2.1 "nope" [] rfl,
    error_body_propagation.2.2.2.2.2.2.2.2.2.2.2.2.1 "x"
      (fun _ => .error "no such file") "no such file" rfl,
    error_body_propagation.2.2.2.2.2.2.2.2.2.2.2.2.2 "x"
      (fun _ => some "remove failed") "remove failed" rfl⟩

/-- Claim C7: a delete whose storage call does not error answers 204 No
Content whether or not any row matched, and with no matching row the
stored collection is unchanged. -/
theorem deleteTodo_no_verify :
    (∀ (u : String) (db : DB), (deleteTodo u none db).1 = ⟨204, .empty⟩) ∧
    (∀ (u : String) (db : DB), (∀ t ∈ db, t.uuid ≠ u) → (deleteTodo u none db).2 = db) := by
  constructor
  · intro u db
    rfl
  · intro u db h
    show db.filter (fun t => ¬ t.uuid = u) = db
    rw [List.filter_eq_self]
    intro t ht
    simp [h t ht]

/-- Witness for C7: deleting an absent uuid leaves the table unchanged
(and conjunct one at that input gives the 204). -/
theorem deleteTodo_no_verify_witness :
    (deleteTodo "nope" none [sampleTodo]).1 = ⟨204, .empty⟩ ∧
    (deleteTodo "nope" none [sampleTodo]).2 = [sampleTodo] :=
  ⟨deleteTodo_no_verify.1 "nope" [sampleTodo],
    deleteTodo_no_verify.2 "nope" [sampleTodo] (by decide)⟩

/-- Claim C8: listing an existing upload directory with zero files (no
entries at all, or only subdirectories) answers 200 with the empty
collection of names, not an error. -/
theorem listFiles_empty :
    listFiles (.ok []) = ⟨200, .jsonStrings []⟩ ∧
    ∀ entries : List DirEntry, (∀ en ∈ entries, en.isDir = true) →
      listFiles (.ok entries) = ⟨200, .jsonStrings []⟩ := by
  constructor
  · rfl
  · intro entries h
    have hf : entries.filter (fun f => ¬ f.isDir) = [] := by
      rw [List.filter_eq_nil_iff]
      intro a ha
      simp [h a ha]
    simp only [listFiles, hf, List.map_nil]

/-- Witness for C8: a directory holding only a subdirectory lists no
files. -/
theorem listFiles_empty_witness :
    listFiles (.ok [{ name := "sub", isDir := true }]) = ⟨200, .jsonStrings []⟩ :=
  listFiles_empty.2 [{ name := "sub", isDir := true }] (by decide)

/-- Folding the last-component step over slash-free characters only
appends them. -/
theorem foldl_lastComponent_no_slash (l : List Char) (h : ∀ c ∈ l, c ≠ '/') :
    ∀ acc, l.foldl (fun acc c => if c = '/' then [] else acc ++ [c]) acc = acc ++ l := by
  induction l with
  | nil =>
    intro acc
    simp
  | cons c cs ih =>
    intro acc
    have hc : c ≠ '/' := h c (List.mem_cons_self c cs)
    simp only [List.foldl_cons, if_neg hc]
    rw [ih (fun x hx => h x (List.mem_cons_of_mem c hx))]
    simp

/-- A character list whose last character is not a slash loses nothing to
the trailing-slash strip. -/
theorem dropTrailingSlashes_of_last (l : List Char) (a : Char) (t : List Char)
    (hrev : l.reverse = a :: t) (ha : a ≠ '/') : dropTrailingSlashes l = l := by
  unfold dropTrailingSlashes
  rw [hrev, List.dropWhile_cons]
  have hd : decide (a = '/') = false := by simp [ha]
  rw [hd]
  simp only [Bool.false_eq_true, if_false]
  rw [← hrev, List.reverse_reverse]

/-- `filepath.Base` drops every directory component: the base of
`d ++ "/" ++ n` for a nonempty slash-free `n` is `n` itself. -/
theorem filepathBase_strips (d n : String) (hn : n ≠ "") (h : ∀ c ∈ n.data, c ≠ '/') :
    filepathBase (d ++ "/" ++ n) = n := by
  have hdata : (d ++ "/" ++ n).data = (d.data ++ ['/']) ++ n.data := by
    rw [String.data_append, String.data_append]
  have hne : n.data ≠ [] := by
    intro hd
    exact hn (String.ext hd)
  obtain ⟨a, t0, hrev⟩ : ∃ a t0, n.data.reverse = a :: t0 := by
    cases hr : n.data.reverse with
    | nil =>
      rw [List.reverse_eq_nil_iff] at hr
      exact absurd hr hne
    | cons a t0 => exact ⟨a, t0, rfl⟩
  have ha : a ≠ '/' := h a (by rw [← List.mem_reverse, hrev]; exact List.mem_cons_self a t0)
  have hpne : (d ++ "/" ++ n) ≠ "" := by
    intro he
    have h0 : (d ++ "/" ++ n).data = [] := by rw [he]
    rw [hdata] at h0
    simp at h0
  have hdrop : dropTrailingSlashes (d ++ "/" ++ n).data = (d ++ "/" ++ n).data := by
    refine dropTrailingSlashes_of_last _ a (t0 ++ (d.data ++ ['/']).reverse) ?_ ha
    rw [hdata, List.reverse_append, hrev]
    rfl
  have hpd : (d ++ "/" ++ n).data ≠ [] := by
    rw [hdata]
    simp
  have hmid : ∀ acc : List Char,
      List.foldl (fun acc c => if c = '/' then [] else acc ++ [c]) acc ['/'] = [] := by
    intro acc
    simp
  have hlast : lastComponent (d ++ "/" ++ n).data = n.data := by
    rw [hdata]
    unfold lastComponent
    rw [List.foldl_append, List.foldl_append, hmid]
    simpa using foldl_lastComponent_no_slash n.data h []
  unfold filepathBase
  rw [if_neg hpne, hdrop, if_neg hpd, hlast]

/-- Claim C9: an upload with a present file field stores and returns the
path obtained by joining, under the fixed upload directory, the
nanosecond timestamp, a hyphen and the basename of the client-supplied
filename; and the basename step strips every directory component of the
client name. -/
theorem uploadFile_path :
    (∀ (clientName : String) (nowNano : Nat),
      uploadFile (.ok clientName) nowNano none none =
        ⟨201, .jsonPath (filepathJoin uploadDir
          (toString nowNano ++ "-" ++ filepathBase clientName))⟩) ∧
    (∀ d n : String, n ≠ "" → (∀ c ∈ n.data, c ≠ '/') →
      filepathBase (d ++ "/" ++ n) = n) :=
  ⟨fun _ _ => rfl, filepathBase_strips⟩

/-- Witness for C9: uploading a client name with directory components
stores it under its timestamp-prefixed basename. -/
theorem uploadFile_path_witness :
    uploadFile (.ok "report.txt") 123 none none =
      ⟨201, .jsonPath (filepathJoin uploadDir
        (toString 123 ++ "-" ++ filepathBase "report.txt"))⟩ ∧
    filepathBase ("tmp/evil" ++ "/" ++ "report.txt") = "report.txt" :=
  ⟨uploadFile_path.1 "report.txt" 123,
    uploadFile_path.2 "tmp/evil" "report.txt" (by decide) (by decide)⟩
